import Mathlib

set_option autoImplicit false

namespace AmazonDashboard

/-!
Shallow embedding of the statistics-aggregation layer of
src/amazon-movie-streamlit-dashboard.py (the function
load_stats_from_mongodb, lines 149-211, together with the availability
check against connect_mongodb).

Modelling decisions:
* A review document carries the four fields the aggregation reads; a
  missing/null field is `none`.  Numeric values are embedded as `ℚ`
  (the queries only add, count and divide them).  The source field
  helpful_ratio is embedded under the name `helpful`.
* A MongoDB `$group` stage is embedded as a single left fold over the
  document list that inserts each document into an accumulator keyed by
  the group `_id`, exactly as a hash-group executes: `$sum: 1` counts
  every document of the group, `$avg` sums and counts only the present
  (non-null) values and divides at the end, returning null for a group
  with no present value.
* A `$sort {_id: 1}` stage on grouped results, and the
  `sort("review_count", -1)` cursor sort, are embedded as an insertion
  sort with the corresponding comparison (BSON orders null before
  numbers); the algorithm is unspecified in the source, any correct
  sort is a faithful embedding.
* Python dictionaries built by the comprehensions are embedded as
  association lists in construction order, read through `alookup`
  (first entry whose key matches).  The `str(...)` applied to the keys
  in the source is injective on the key domains involved, so the keys
  are kept unstringified.
* The store handle is `Option Store`: `none` embeds the situation in
  which connect_mongodb returned None (no URI configured, or the
  connection attempt raised and was caught).
-/

/-- One document of the `reviews` collection (data model of the spec,
section 3).  `helpful` embeds the source field helpful_ratio. -/
structure Review where
  score : Option ℚ
  year : Option Int
  word_count : Option ℚ
  helpful : Option ℚ
  deriving Repr, DecidableEq

/-- One document of the `user_stats` collection. -/
structure UserSummary where
  review_count : Int
  deriving Repr, DecidableEq

/-- One document of the `product_stats` collection. -/
structure ProductSummary where
  pid : String
  review_count : Int
  avg_rating : ℚ
  deriving Repr, DecidableEq

/-- The three read-only collections the aggregator queries. -/
structure Store where
  reviews : List Review
  user_stats : List UserSummary
  product_stats : List ProductSummary
  deriving Repr, DecidableEq

/-- Per-group accumulator of a `$group` stage: `n` is the running
`$sum: 1` document count, `vsum` and `vcnt` accumulate the `$avg`
input over present values only. -/
structure GroupAcc where
  n : Nat
  vsum : ℚ
  vcnt : Nat
  deriving Repr, DecidableEq

/-- Push one document value into the accumulator: the document is
always counted, the averaged value only when present (MongoDB `$avg`
skips null/absent). -/
def GroupAcc.push (a : GroupAcc) : Option ℚ → GroupAcc
  | some q => ⟨a.n + 1, a.vsum + q, a.vcnt + 1⟩
  | none => ⟨a.n + 1, a.vsum, a.vcnt⟩

/-- Final `$avg` value of a group: null when no present value. -/
def GroupAcc.avg (a : GroupAcc) : Option ℚ :=
  if a.vcnt = 0 then none else some (a.vsum / (a.vcnt : ℚ))

/-- The accumulator a group ends with, described extensionally from the
list of documents of that group. -/
def GroupAcc.ofList (val : Review → Option ℚ) (l : List Review) : GroupAcc :=
  ⟨l.length, (l.filterMap val).sum, (l.filterMap val).length⟩

/-- Componentwise sum of two accumulators. -/
def GroupAcc.combine (a b : GroupAcc) : GroupAcc :=
  ⟨a.n + b.n, a.vsum + b.vsum, a.vcnt + b.vcnt⟩

section Grouping

variable {K : Type} [DecidableEq K]

/-- Insert one document (key `k`, averaged value `v`) into the grouped
accumulator list: the first entry with key `k` is updated, a fresh
group is appended at the end when the key is new. -/
def insertGrp (k : K) (v : Option ℚ) : List (K × GroupAcc) → List (K × GroupAcc)
  | [] => [(k, GroupAcc.push ⟨0, 0, 0⟩ v)]
  | e :: t => if e.1 = k then (e.1, e.2.push v) :: t else e :: insertGrp k v t

/-- One `$group` stage over the review list: key is the group `_id`
expression, `val` the argument of the `$avg` accumulator. -/
def groupBy (key : Review → K) (val : Review → Option ℚ) (rs : List Review) :
    List (K × GroupAcc) :=
  List.foldl (fun acc r => insertGrp (key r) (val r) acc) [] rs

/-- Lookup of the first entry with the given key in an association
list (how a Python dict built from distinct keys is read). -/
def alookup {β : Type} (k : K) : List (K × β) → Option β
  | [] => none
  | e :: t => if e.1 = k then some e.2 else alookup k t

end Grouping

/-- Insert an element into an already sorted list (`le` is the
comparison of the embedded sort stage). -/
def insertLE {β : Type} (le : β → β → Bool) (x : β) : List β → List β
  | [] => [x]
  | y :: t => if le x y then x :: y :: t else y :: insertLE le x t

/-- Insertion sort; embeds the sort stages of the source, whose
algorithm is unspecified. -/
def sortWith {β : Type} (le : β → β → Bool) : List β → List β
  | [] => []
  | x :: t => insertLE le x (sortWith le t)

section SortKeys

variable {K : Type} [DecidableEq K]

/-- `$sort {_id: 1}` over grouped results sorts the groups by key. -/
def sortByKey {β : Type} (le : K → K → Bool) (l : List (K × β)) : List (K × β) :=
  sortWith (fun a b => le a.1 b.1) l

end SortKeys

/-- BSON ascending order on a nullable numeric key: null sorts before
every number. -/
def keyLE {A : Type} (le : A → A → Bool) : Option A → Option A → Bool
  | none, _ => true
  | some _, none => false
  | some a, some b => le a b

/-- Ascending comparison on rationals. -/
def qLE (a b : ℚ) : Bool := decide (a ≤ b)

/-- Ascending comparison on integers. -/
def zLE (a b : Int) : Bool := decide (a ≤ b)

/-- Source lines 159-162: group reviews by score, count each group,
sort by group key ascending. -/
def ratingResults (rs : List Review) : List (Option ℚ × GroupAcc) :=
  sortByKey (keyLE qLE) (groupBy (fun r => r.score) (fun _ => none) rs)

/-- Source line 163: the rating_counts dict (group key, document count
of the group). -/
def ratingCounts (rs : List Review) : List (Option ℚ × Nat) :=
  (ratingResults rs).map (fun e => (e.1, e.2.n))

/-- Source lines 202-203: each count divided by total_reviews times
100, empty dict when total_reviews is 0. -/
def ratingPercentages (total : Nat) (rc : List (Option ℚ × Nat)) :
    List (Option ℚ × ℚ) :=
  if total > 0 then rc.map (fun e => (e.1, (e.2 : ℚ) / (total : ℚ) * 100)) else []

/-- Source lines 165-168: group reviews by year with document count
and average score, sorted by year ascending. -/
def yearlyResults (rs : List Review) : List (Option Int × GroupAcc) :=
  sortByKey (keyLE zLE) (groupBy (fun r => r.year) (fun r => r.score) rs)

/-- Value object of one yearly_data entry. -/
structure YearEntry where
  count : Nat
  avg_rating : Option ℚ
  deriving Repr, DecidableEq

/-- Source lines 169-170: one entry of the yearly_data dict.  The
comprehension keeps a group only `if y[_id]`, i.e. only when the year
key is truthy: a null (absent) year is dropped, and so is the integer
year 0, which is falsy in Python. -/
def yearlyEntry (e : Option Int × GroupAcc) : Option (Int × YearEntry) :=
  match e.1 with
  | none => none
  | some y => if y = 0 then none else some (y, ⟨e.2.n, e.2.avg⟩)

/-- Source lines 165-170: the yearly_data dict. -/
def yearlyData (rs : List Review) : List (Int × YearEntry) :=
  (yearlyResults rs).filterMap yearlyEntry

/-- Source line 172: filter review_count <= 5. -/
def casualP (u : UserSummary) : Bool := decide (u.review_count ≤ 5)

/-- Source line 173: filter 5 < review_count <= 50. -/
def regularP (u : UserSummary) : Bool :=
  decide (5 < u.review_count ∧ u.review_count ≤ 50)

/-- Source line 174: filter review_count > 50. -/
def powerP (u : UserSummary) : Bool := decide (50 < u.review_count)

/-- The user_segments value of the bundle (source line 205). -/
structure Segments where
  casual : Nat
  regular : Nat
  power : Nat
  deriving Repr, DecidableEq

/-- Source line 176: all product_stats documents sorted by
review_count descending, first 15. -/
def topProducts (ps : List ProductSummary) : List ProductSummary :=
  (sortWith (fun a b => decide (b.review_count ≤ a.review_count)) ps).take 15

/-- Source lines 178-180: the single-group aggregate over all reviews
returning the average score and the average word count; the result
list is empty exactly when the reviews collection is empty. -/
def avgResult (rs : List Review) : Option (Option ℚ × Option ℚ) :=
  match alookup () (groupBy (fun _ => ()) (fun r => r.score) rs),
      alookup () (groupBy (fun _ => ()) (fun r => r.word_count) rs) with
  | some a, some w => some (a.avg, w.avg)
  | _, _ => none

/-- Source lines 182-185: group reviews by score, average word count
per group, sorted by key. -/
def wcResults (rs : List Review) : List (Option ℚ × GroupAcc) :=
  sortByKey (keyLE qLE) (groupBy (fun r => r.score) (fun r => r.word_count) rs)

/-- Source line 186: the word_count_by_rating dict. -/
def wcByRating (rs : List Review) : List (Option ℚ × Option ℚ) :=
  (wcResults rs).map (fun e => (e.1, e.2.avg))

/-- Source lines 188-192: match reviews whose helpful ratio is not
null, then group by score and average the helpful ratio. -/
def helpResults (rs : List Review) : List (Option ℚ × GroupAcc) :=
  sortByKey (keyLE qLE)
    (groupBy (fun r => r.score) (fun r => r.helpful)
      (rs.filter (fun r => (r.helpful).isSome)))

/-- Source line 193: the helpful_by_rating dict. -/
def helpByRating (rs : List Review) : List (Option ℚ × Option ℚ) :=
  (helpResults rs).map (fun e => (e.1, e.2.avg))

/-- The statistics bundle returned by load_stats_from_mongodb (source
lines 195-211), with the two fields beyond the StatisticsBundle shape
of the spec (power_users, source) included. -/
structure Bundle where
  total_reviews : Nat
  unique_users : Nat
  unique_products : Nat
  avg_rating : Option ℚ
  avg_word_count : Option ℚ
  rating_counts : List (Option ℚ × Nat)
  rating_percentages : List (Option ℚ × ℚ)
  yearly_data : List (Int × YearEntry)
  user_segments : Segments
  power_users : Nat
  word_count_by_rating : List (Option ℚ × Option ℚ)
  helpful_by_rating : List (Option ℚ × Option ℚ)
  top_products : List ProductSummary
  source : String
  deriving Repr, DecidableEq

/-- A read-only query against the store: returns its result and hands
the store state back unchanged (count_documents, aggregate and find
issue no writes). -/
def readQuery {α : Type} (q : Store → α) (s : Store) : α × Store := (q s, s)

/-- The body of load_stats_from_mongodb after the availability check
(source lines 155-211): the fixed sequence of queries, each running
against the store state left by the previous one, and the assembly of
the bundle. -/
def load_stats_exec (db : Store) : Bundle × Store :=
  let q1 := readQuery (fun s => s.reviews.length) db
  let q2 := readQuery (fun s => s.user_stats.length) q1.2
  let q3 := readQuery (fun s => s.product_stats.length) q2.2
  let q4 := readQuery (fun s => ratingResults s.reviews) q3.2
  let rating_counts := q4.1.map (fun e => (e.1, e.2.n))
  let q5 := readQuery (fun s => yearlyResults s.reviews) q4.2
  let q6 := readQuery (fun s => s.user_stats.countP casualP) q5.2
  let q7 := readQuery (fun s => s.user_stats.countP regularP) q6.2
  let q8 := readQuery (fun s => s.user_stats.countP powerP) q7.2
  let q9 := readQuery (fun s => topProducts s.product_stats) q8.2
  let q10 := readQuery (fun s => avgResult s.reviews) q9.2
  let q11 := readQuery (fun s => wcResults s.reviews) q10.2
  let q12 := readQuery (fun s => helpResults s.reviews) q11.2
  (⟨q1.1, q2.1, q3.1,
    (match q10.1 with | none => some 0 | some p => p.1),
    (match q10.1 with | none => some 0 | some p => p.2),
    rating_counts,
    ratingPercentages q1.1 rating_counts,
    q5.1.filterMap yearlyEntry,
    ⟨q6.1, q7.1, q8.1⟩,
    q8.1,
    q11.1.map (fun e => (e.1, e.2.avg)),
    q12.1.map (fun e => (e.1, e.2.avg)),
    q9.1,
    "MongoDB (150K Sample)"⟩, q12.2)

/-- The bundle computed from an available store. -/
def bundle (db : Store) : Bundle := (load_stats_exec db).1

/-- load_stats_from_mongodb (source lines 149-211): yields None when
connect_mongodb produced no handle, the bundle otherwise. -/
def load_stats_from_mongodb : Option Store → Option Bundle
  | none => none
  | some db => some (bundle db)

/-- The mean of a list of rationals, none for the empty list; used to
state what the per-group averages must equal. -/
def avgOpt (m : List ℚ) : Option ℚ :=
  if m = [] then none else some (m.sum / (m.length : ℚ))

/-- A review carrying only a score (concrete test data). -/
def demoReview (q : ℚ) : Review := ⟨some q, none, none, none⟩

/-- The synthetic store of spec section 8: five reviews with scores
[1, 1, 5, 5, 5]. -/
def demoStore : Store :=
  ⟨[demoReview 1, demoReview 1, demoReview 5, demoReview 5, demoReview 5], [], []⟩

/-- A store with three user summaries, one per activity segment. -/
def segStore : Store := ⟨[], [⟨3⟩, ⟨10⟩, ⟨60⟩], []⟩

/-- A store with two distinct product summaries. -/
def prodStore : Store := ⟨[], [], [⟨"A", 7, 4⟩, ⟨"B", 9, 5⟩]⟩

/-- A store with one review whose year is present and equal to 0. -/
def year0Store : Store := ⟨[⟨some 5, some 0, none, none⟩], [], []⟩

/-- The store with all three collections empty. -/
def emptyStore : Store := ⟨[], [], []⟩

/-- A store with two score-5 reviews, one carrying a word count and a
helpful ratio, the other missing both. -/
def wcStore : Store :=
  ⟨[⟨some 5, none, some 100, some (1 / 2)⟩, ⟨some 5, none, none, none⟩], [], []⟩

/-!  Lemmas about the grouping fold. -/

section GroupingLemmas

variable {K : Type} [DecidableEq K]

theorem GroupAcc.n_push (a : GroupAcc) (v : Option ℚ) : (a.push v).n = a.n + 1 := by
  cases v <;> rfl

theorem GroupAcc.combine_ofList_nil (a : GroupAcc) (val : Review → Option ℚ) :
    a.combine (GroupAcc.ofList val []) = a := by
  simp [GroupAcc.combine, GroupAcc.ofList]

theorem GroupAcc.zero_combine (b : GroupAcc) :
    (⟨0, 0, 0⟩ : GroupAcc).combine b = b := by
  simp [GroupAcc.combine]

theorem GroupAcc.push_combine (a : GroupAcc) (val : Review → Option ℚ) (r : Review)
    (l : List Review) :
    (a.push (val r)).combine (GroupAcc.ofList val l) =
      a.combine (GroupAcc.ofList val (r :: l)) := by
  cases h : val r
  · simp [GroupAcc.push, GroupAcc.combine, GroupAcc.ofList, List.filterMap_cons, h]
    omega
  · simp [GroupAcc.push, GroupAcc.combine, GroupAcc.ofList, List.filterMap_cons, h]
    refine ⟨by omega, by ring, by omega⟩

theorem alookup_insertGrp (k q : K) (v : Option ℚ) (l : List (K × GroupAcc)) :
    alookup k (insertGrp q v l) =
      if q = k then some (((alookup k l).getD ⟨0, 0, 0⟩).push v) else alookup k l := by
  induction l with
  | nil => by_cases h : q = k <;> simp [insertGrp, alookup, h]
  | cons e t ih =>
      by_cases he : e.1 = q
      · by_cases hk : q = k
        · subst hk
          simp [insertGrp, alookup, he]
        · have hek : e.1 ≠ k := by rw [he]; exact hk
          simp [insertGrp, alookup, he, hek, hk]
      · by_cases hk : q = k
        · subst hk
          simp [insertGrp, alookup, he, ih]
        · by_cases hek : e.1 = k
          · have hkq : ¬ k = q := fun h2 => he (hek.trans h2)
            simp [insertGrp, alookup, he, hek, hk, hkq, ih]
          · simp [insertGrp, alookup, he, hek, hk, ih]

theorem alookup_foldl_insertGrp (key : Review → K) (val : Review → Option ℚ)
    (rs : List Review) :
    ∀ (acc : List (K × GroupAcc)) (k : K),
      alookup k (List.foldl (fun a r => insertGrp (key r) (val r) a) acc rs) =
        match alookup k acc with
        | some a =>
            some (a.combine (GroupAcc.ofList val (rs.filter (fun r => decide (key r = k)))))
        | none =>
            if (rs.filter (fun r => decide (key r = k))).isEmpty then none
            else some (GroupAcc.ofList val (rs.filter (fun r => decide (key r = k)))) := by
  induction rs with
  | nil =>
      intro acc k
      cases h : alookup k acc <;> simp [h, GroupAcc.combine_ofList_nil]
  | cons r rs ih =>
      intro acc k
      rw [List.foldl_cons, ih, alookup_insertGrp]
      by_cases hkr : key r = k <;> cases h : alookup k acc <;>
        simp [hkr, h, List.filter_cons, GroupAcc.push_combine, GroupAcc.zero_combine]

theorem alookup_groupBy (key : Review → K) (val : Review → Option ℚ)
    (rs : List Review) (k : K) :
    alookup k (groupBy key val rs) =
      if (rs.filter (fun r => decide (key r = k))).isEmpty then none
      else some (GroupAcc.ofList val (rs.filter (fun r => decide (key r = k)))) := by
  have h := alookup_foldl_insertGrp key val rs [] k
  simpa [groupBy, alookup] using h

theorem nsum_insertGrp (k : K) (v : Option ℚ) (l : List (K × GroupAcc)) :
    ((insertGrp k v l).map (fun e => e.2.n)).sum =
      ((l.map (fun e => e.2.n)).sum) + 1 := by
  induction l with
  | nil => simp [insertGrp, GroupAcc.n_push]
  | cons e t ih =>
      by_cases he : e.1 = k
      · simp [insertGrp, he, GroupAcc.n_push]
        omega
      · simp [insertGrp, he, ih]
        omega

theorem nsum_foldl (key : Review → K) (val : Review → Option ℚ) (rs : List Review) :
    ∀ acc : List (K × GroupAcc),
      ((List.foldl (fun a r => insertGrp (key r) (val r) a) acc rs).map
          (fun e => e.2.n)).sum =
        ((acc.map (fun e => e.2.n)).sum) + rs.length := by
  induction rs with
  | nil => intro acc; simp
  | cons r rs ih =>
      intro acc
      rw [List.foldl_cons, ih, nsum_insertGrp]
      simp
      omega

theorem nsum_groupBy (key : Review → K) (val : Review → Option ℚ) (rs : List Review) :
    ((groupBy key val rs).map (fun e => e.2.n)).sum = rs.length := by
  have h := nsum_foldl key val rs []
  simpa [groupBy] using h

theorem keys_insertGrp (k : K) (v : Option ℚ) (l : List (K × GroupAcc)) :
    (insertGrp k v l).map Prod.fst =
      if k ∈ l.map Prod.fst then l.map Prod.fst else l.map Prod.fst ++ [k] := by
  induction l with
  | nil => simp [insertGrp]
  | cons e t ih =>
      by_cases he : e.1 = k
      · simp [insertGrp, he]
      · have he2 : ¬ k = e.1 := fun h => he h.symm
        by_cases hm : k ∈ t.map Prod.fst <;>
          simp [insertGrp, he, he2, ih, hm, List.mem_cons]

theorem nodup_keys_insertGrp (k : K) (v : Option ℚ) (l : List (K × GroupAcc))
    (nd : (l.map Prod.fst).Nodup) : ((insertGrp k v l).map Prod.fst).Nodup := by
  rw [keys_insertGrp]
  by_cases hm : k ∈ l.map Prod.fst
  · simpa [hm] using nd
  · rw [if_neg hm, List.nodup_append]
    refine ⟨nd, List.nodup_singleton k, fun a ha hak => ?_⟩
    rw [List.mem_singleton] at hak
    subst hak
    exact hm ha

theorem nodup_keys_foldl (key : Review → K) (val : Review → Option ℚ)
    (rs : List Review) :
    ∀ acc : List (K × GroupAcc), (acc.map Prod.fst).Nodup →
      ((List.foldl (fun a r => insertGrp (key r) (val r) a) acc rs).map Prod.fst).Nodup := by
  induction rs with
  | nil => intro acc h; simpa using h
  | cons r rs ih =>
      intro acc h
      rw [List.foldl_cons]
      exact ih _ (nodup_keys_insertGrp _ _ _ h)

theorem nodup_keys_groupBy (key : Review → K) (val : Review → Option ℚ)
    (rs : List Review) : ((groupBy key val rs).map Prod.fst).Nodup :=
  nodup_keys_foldl key val rs [] (by simp)

theorem alookup_perm {β : Type} {l₁ l₂ : List (K × β)} (h : l₁.Perm l₂) (k : K) :
    (l₁.map Prod.fst).Nodup → alookup k l₁ = alookup k l₂ := by
  induction h with
  | nil => intro _; rfl
  | cons x h ih =>
      intro nd
      rw [List.map_cons] at nd
      have nd' := (List.nodup_cons.mp nd).2
      simp only [alookup]
      rw [ih nd']
  | swap x y t =>
      intro nd
      rw [List.map_cons, List.map_cons] at nd
      have hmem := (List.nodup_cons.mp nd).1
      have hxy : y.1 ≠ x.1 := by
        intro he
        exact hmem (by rw [he]; exact List.mem_cons_self _ _)
      by_cases h1 : y.1 = k
      · by_cases h2 : x.1 = k
        · exact absurd (h1.trans h2.symm) hxy
        · simp [alookup, h1, h2]
      · by_cases h2 : x.1 = k <;> simp [alookup, h1, h2]
  | trans h₁ h₂ ih₁ ih₂ =>
      intro nd
      exact (ih₁ nd).trans (ih₂ (((h₁.map Prod.fst).nodup_iff).mp nd))

theorem filter_key_isEmpty_iff (key : Review → K) (rs : List Review) (k : K) :
    (rs.filter (fun r => decide (key r = k))).isEmpty = true ↔ k ∉ rs.map key := by
  constructor
  · intro h hm
    rcases List.mem_map.mp hm with ⟨r, hr, hrk⟩
    have : r ∈ rs.filter (fun r => decide (key r = k)) :=
      List.mem_filter.mpr ⟨hr, by simp [hrk]⟩
    rw [List.isEmpty_iff] at h
    simp [h] at this
  · intro hm
    rw [List.isEmpty_iff, List.filter_eq_nil_iff]
    intro r hr hk
    exact hm (List.mem_map.mpr ⟨r, hr, by simpa using hk⟩)

end GroupingLemmas

/-!  Lemmas about the insertion sort. -/

section SortLemmas

theorem perm_insertLE {β : Type} (le : β → β → Bool) (x : β) (l : List β) :
    (insertLE le x l).Perm (x :: l) := by
  induction l with
  | nil => exact List.Perm.refl _
  | cons y t ih =>
      by_cases h : le x y = true
      · simp only [insertLE, if_pos h]
        exact List.Perm.refl _
      · simp only [insertLE, if_neg h]
        exact (ih.cons y).trans (List.Perm.swap x y t)

theorem perm_sortWith {β : Type} (le : β → β → Bool) (l : List β) :
    (sortWith le l).Perm l := by
  induction l with
  | nil => exact List.Perm.refl _
  | cons x t ih => exact (perm_insertLE le x (sortWith le t)).trans (ih.cons x)

theorem mem_insertLE {β : Type} (le : β → β → Bool) (x a : β) (l : List β) :
    a ∈ insertLE le x l ↔ a = x ∨ a ∈ l := by
  rw [(perm_insertLE le x l).mem_iff, List.mem_cons]

theorem pairwise_insertLE {β : Type} (le : β → β → Bool)
    (total : ∀ a b, le a b = true ∨ le b a = true)
    (htrans : ∀ a b c, le a b = true → le b c = true → le a c = true)
    (x : β) (l : List β) (h : l.Pairwise (fun a b => le a b = true)) :
    (insertLE le x l).Pairwise (fun a b => le a b = true) := by
  induction l with
  | nil => simp [insertLE]
  | cons y t ih =>
      rcases List.pairwise_cons.mp h with ⟨hy, ht⟩
      by_cases hxy : le x y = true
      · simp only [insertLE, if_pos hxy]
        refine List.Pairwise.cons ?_ h
        intro b hb
        rcases List.mem_cons.mp hb with rfl | hbt
        · exact hxy
        · exact htrans x y b hxy (hy b hbt)
      · simp only [insertLE, if_neg hxy]
        refine List.Pairwise.cons ?_ (ih ht)
        intro b hb
        rcases (mem_insertLE le x b t).mp hb with rfl | hbt
        · rcases total b y with hxy2 | hyx
          · exact absurd hxy2 hxy
          · exact hyx
        · exact hy b hbt

theorem sorted_sortWith {β : Type} (le : β → β → Bool)
    (total : ∀ a b, le a b = true ∨ le b a = true)
    (htrans : ∀ a b c, le a b = true → le b c = true → le a c = true)
    (l : List β) : (sortWith le l).Pairwise (fun a b => le a b = true) := by
  induction l with
  | nil => simp [sortWith]
  | cons x t ih => exact pairwise_insertLE le total htrans x (sortWith le t) ih

theorem alookup_sortByKey {K : Type} [DecidableEq K] {β : Type} (le : K → K → Bool)
    (l : List (K × β)) (nd : (l.map Prod.fst).Nodup) (k : K) :
    alookup k (sortByKey le l) = alookup k l :=
  alookup_perm (perm_sortWith _ l) k
    ((((perm_sortWith (fun a b : K × β => le a.1 b.1) l).map Prod.fst).nodup_iff).mpr nd)

end SortLemmas

/-!  Lemmas about the assembled pipelines and the bundle fields. -/

section PipelineLemmas

theorem alookup_sorted_groupBy {K : Type} [DecidableEq K] (le : K → K → Bool)
    (key : Review → K) (val : Review → Option ℚ) (rs : List Review) (k : K) :
    alookup k (sortByKey le (groupBy key val rs)) =
      if (rs.filter (fun r => decide (key r = k))).isEmpty then none
      else some (GroupAcc.ofList val (rs.filter (fun r => decide (key r = k)))) :=
  (alookup_sortByKey le _ (nodup_keys_groupBy key val rs) k).trans
    (alookup_groupBy key val rs k)

theorem alookup_mapVal {K : Type} [DecidableEq K] {β γ : Type} (g : β → γ) (k : K)
    (l : List (K × β)) :
    alookup k (l.map (fun e => (e.1, g e.2))) = (alookup k l).map g := by
  induction l with
  | nil => rfl
  | cons e t ih => by_cases h : e.1 = k <;> simp [alookup, h, ih]

theorem GroupAcc.avg_ofList (val : Review → Option ℚ) (l : List Review) :
    (GroupAcc.ofList val l).avg = avgOpt (l.filterMap val) := by
  rcases h : l.filterMap val with _ | ⟨q, m⟩ <;>
    simp [GroupAcc.ofList, GroupAcc.avg, avgOpt, h]

theorem alookup_ratingResults (rs : List Review) (k : Option ℚ) :
    alookup k (ratingResults rs) =
      if (rs.filter (fun r => decide (r.score = k))).isEmpty then none
      else some (GroupAcc.ofList (fun _ => none) (rs.filter (fun r => decide (r.score = k)))) :=
  alookup_sorted_groupBy (keyLE qLE) (fun r => r.score) (fun _ => none) rs k

theorem alookup_wcResults (rs : List Review) (k : Option ℚ) :
    alookup k (wcResults rs) =
      if (rs.filter (fun r => decide (r.score = k))).isEmpty then none
      else some (GroupAcc.ofList (fun r => r.word_count)
        (rs.filter (fun r => decide (r.score = k)))) :=
  alookup_sorted_groupBy (keyLE qLE) (fun r => r.score) (fun r => r.word_count) rs k

theorem alookup_helpResults (rs : List Review) (k : Option ℚ) :
    alookup k (helpResults rs) =
      if ((rs.filter (fun r => (r.helpful).isSome)).filter
            (fun r => decide (r.score = k))).isEmpty then none
      else some (GroupAcc.ofList (fun r => r.helpful)
        ((rs.filter (fun r => (r.helpful).isSome)).filter
          (fun r => decide (r.score = k)))) :=
  alookup_sorted_groupBy (keyLE qLE) (fun r => r.score) (fun r => r.helpful)
    (rs.filter (fun r => (r.helpful).isSome)) k

theorem alookup_yearlyResults (rs : List Review) (k : Option Int) :
    alookup k (yearlyResults rs) =
      if (rs.filter (fun r => decide (r.year = k))).isEmpty then none
      else some (GroupAcc.ofList (fun r => r.score)
        (rs.filter (fun r => decide (r.year = k)))) :=
  alookup_sorted_groupBy (keyLE zLE) (fun r => r.year) (fun r => r.score) rs k

theorem bundle_total_reviews (s : Store) : (bundle s).total_reviews = s.reviews.length := rfl

theorem bundle_unique_users (s : Store) : (bundle s).unique_users = s.user_stats.length := rfl

theorem bundle_unique_products (s : Store) :
    (bundle s).unique_products = s.product_stats.length := rfl

theorem bundle_rating_counts (s : Store) :
    (bundle s).rating_counts = ratingCounts s.reviews := rfl

theorem bundle_rating_percentages (s : Store) :
    (bundle s).rating_percentages =
      ratingPercentages s.reviews.length (ratingCounts s.reviews) := rfl

theorem bundle_yearly_data (s : Store) : (bundle s).yearly_data = yearlyData s.reviews := rfl

theorem bundle_user_segments (s : Store) :
    (bundle s).user_segments =
      ⟨s.user_stats.countP casualP, s.user_stats.countP regularP,
        s.user_stats.countP powerP⟩ := rfl

theorem bundle_power_users (s : Store) :
    (bundle s).power_users = s.user_stats.countP powerP := rfl

theorem bundle_word_count_by_rating (s : Store) :
    (bundle s).word_count_by_rating = wcByRating s.reviews := rfl

theorem bundle_helpful_by_rating (s : Store) :
    (bundle s).helpful_by_rating = helpByRating s.reviews := rfl

theorem bundle_top_products (s : Store) :
    (bundle s).top_products = topProducts s.product_stats := rfl

theorem bundle_source (s : Store) : (bundle s).source = "MongoDB (150K Sample)" := rfl

theorem alookup_ratingPercentages (total : Nat) (h : 0 < total)
    (rc : List (Option ℚ × Nat)) (k : Option ℚ) (c : Nat)
    (hc : alookup k rc = some c) :
    alookup k (ratingPercentages total rc) = some ((c : ℚ) / (total : ℚ) * 100) := by
  rw [ratingPercentages, if_pos h]
  induction rc with
  | nil => simp [alookup] at hc
  | cons e t ih =>
      by_cases hek : e.1 = k
      · simp [alookup, hek] at hc
        simp [alookup, hek, hc]
      · simp [alookup, hek] at hc
        simp only [List.map_cons, alookup, hek, if_neg hek]
        exact ih hc

theorem segTrichotomy (u : UserSummary) :
    (casualP u = true ∧ regularP u = false ∧ powerP u = false) ∨
    (casualP u = false ∧ regularP u = true ∧ powerP u = false) ∨
    (casualP u = false ∧ regularP u = false ∧ powerP u = true) := by
  simp only [casualP, regularP, powerP, decide_eq_true_eq, decide_eq_false_iff_not,
    not_and, not_lt, not_le]
  omega

theorem countP_segments (us : List UserSummary) :
    us.countP casualP + us.countP regularP + us.countP powerP = us.length := by
  induction us with
  | nil => simp
  | cons u t ih =>
      simp only [List.countP_cons, List.length_cons]
      rcases segTrichotomy u with ⟨h1, h2, h3⟩ | ⟨h1, h2, h3⟩ | ⟨h1, h2, h3⟩ <;>
        simp [h1, h2, h3] <;> omega

theorem filterMap_filter_isSome {α β : Type} (f : α → Option β) (l : List α) :
    (l.filter (fun a => (f a).isSome)).filterMap f = l.filterMap f := by
  induction l with
  | nil => rfl
  | cons a t ih => cases h : f a <;> simp [List.filter_cons, List.filterMap_cons, h, ih]

theorem filter_swap {α : Type} (p q : α → Bool) (l : List α) :
    (l.filter p).filter q = (l.filter q).filter p := by
  induction l with
  | nil => rfl
  | cons a t ih => cases hp : p a <;> cases hq : q a <;> simp [List.filter_cons, hp, hq, ih]

theorem alookup_filterMap_yearlyEntry (y : Int) (l : List (Option Int × GroupAcc)) :
    alookup y (l.filterMap yearlyEntry) =
      if y = 0 then none
      else (alookup (some y) l).map (fun a => (⟨a.n, a.avg⟩ : YearEntry)) := by
  induction l with
  | nil => simp [alookup]
  | cons e t ih =>
      rcases e with ⟨k, a⟩
      rcases k with _ | z
      · simpa [yearlyEntry, List.filterMap_cons, alookup] using ih
      · by_cases hz : z = 0
        · subst hz
          by_cases hy : y = 0
          · subst hy
            simp [yearlyEntry, List.filterMap_cons, alookup, ih]
          · have h0y : ¬ (0 : Int) = y := fun h2 => hy h2.symm
            simp [yearlyEntry, List.filterMap_cons, alookup, ih, hy, h0y]
        · by_cases hzy : z = y
          · have hy0 : ¬ y = 0 := fun h2 => hz (hzy.trans h2)
            simp [yearlyEntry, List.filterMap_cons, alookup, hz, hzy, hy0, ih]
          · have hzy2 : ¬ (some z : Option Int) = some y := by simpa using hzy
            simp [yearlyEntry, List.filterMap_cons, alookup, hz, hzy, hzy2, ih]

end PipelineLemmas

/-!  The claims. -/

/-- C1: for every store whose review collection is non-empty, every key of
rating_counts is mapped by rating_percentages to its count divided by
total_reviews times 100, and when total_reviews is 0 the rating_percentages
mapping is empty. -/
theorem c1_rating_percentages (s : Store) :
    (s.reviews ≠ [] →
      ∀ (k : Option ℚ) (c : Nat), alookup k (bundle s).rating_counts = some c →
        alookup k (bundle s).rating_percentages =
          some ((c : ℚ) / ((bundle s).total_reviews : ℚ) * 100)) ∧
    ((bundle s).total_reviews = 0 → (bundle s).rating_percentages = []) := by
  constructor
  · intro hne k c hc
    rw [bundle_rating_counts] at hc
    rw [bundle_rating_percentages, bundle_total_reviews]
    exact alookup_ratingPercentages s.reviews.length (List.length_pos.mpr hne) _ k c hc
  · intro h0
    rw [bundle_total_reviews] at h0
    rw [bundle_rating_percentages, ratingPercentages, if_neg (by omega)]

/-- C1 witness: on the five-review store with scores [1,1,5,5,5], the key 5
has count 3 and percentage 3/5*100 = 60. -/
theorem c1_witness :
    demoStore.reviews ≠ [] ∧
    alookup (some (5 : ℚ)) (bundle demoStore).rating_percentages =
      some (((3 : Nat) : ℚ) / ((bundle demoStore).total_reviews : ℚ) * 100) :=
  ⟨by decide, (c1_rating_percentages demoStore).1 (by decide) (some 5) 3 (by decide)⟩

/-- C2: when every user summary row has a non-negative review_count, the
three segment predicates are pairwise disjoint and exhaustive, and the three
segment counters sum to unique_users. -/
theorem c2_user_segments_partition (s : Store)
    (_h : ∀ u ∈ s.user_stats, 0 ≤ u.review_count) :
    (∀ u ∈ s.user_stats,
      (casualP u = true ∧ regularP u = false ∧ powerP u = false) ∨
      (casualP u = false ∧ regularP u = true ∧ powerP u = false) ∨
      (casualP u = false ∧ regularP u = false ∧ powerP u = true)) ∧
    (bundle s).user_segments.casual + (bundle s).user_segments.regular +
        (bundle s).user_segments.power = (bundle s).unique_users := by
  refine ⟨fun u _ => segTrichotomy u, ?_⟩
  rw [bundle_user_segments, bundle_unique_users]
  exact countP_segments s.user_stats

/-- C2 witness: on a store with user review counts [3, 10, 60] the segment
counters sum to the user count. -/
theorem c2_witness :
    (∀ u ∈ segStore.user_stats, 0 ≤ u.review_count) ∧
    (bundle segStore).user_segments.casual + (bundle segStore).user_segments.regular +
        (bundle segStore).user_segments.power = (bundle segStore).unique_users :=
  ⟨by decide, (c2_user_segments_partition segStore (by decide)).2⟩

/-- C3: top_products has length min(15, unique_products), is sorted by
review_count descending, and (given the one-row-per-product shape of the
product_stats collection) contains no product twice. -/
theorem c3_top_products (s : Store) :
    (bundle s).top_products.length = min 15 (bundle s).unique_products ∧
    (bundle s).top_products.Pairwise
      (fun a b => b.review_count ≤ a.review_count) ∧
    ((s.product_stats.map ProductSummary.pid).Nodup →
      ((bundle s).top_products.map ProductSummary.pid).Nodup) := by
  rw [bundle_top_products, bundle_unique_products, topProducts]
  refine ⟨?_, ?_, ?_⟩
  · rw [List.length_take, (perm_sortWith _ _).length_eq]
  · have hs := sorted_sortWith
      (fun a b : ProductSummary => decide (b.review_count ≤ a.review_count))
      (fun a b => by
        rcases Int.le_total b.review_count a.review_count with h | h <;> simp [h])
      (fun a b c hab hbc => by
        simp only [decide_eq_true_eq] at hab hbc ⊢
        omega)
      s.product_stats
    have ht := hs.sublist (List.take_sublist 15 _)
    exact ht.imp (fun hab => by simpa using hab)
  · intro nd
    have hperm :=
      (perm_sortWith (fun a b : ProductSummary => decide (b.review_count ≤ a.review_count))
        s.product_stats).map ProductSummary.pid
    have nds := hperm.nodup_iff.mpr nd
    exact nds.sublist ((List.take_sublist 15 _).map ProductSummary.pid)

/-- C3 witness: on a store with two distinct products the Nodup hypothesis
holds and the selected top products carry no duplicate identifier. -/
theorem c3_witness :
    (prodStore.product_stats.map ProductSummary.pid).Nodup ∧
    ((bundle prodStore).top_products.map ProductSummary.pid).Nodup :=
  ⟨by decide, (c3_top_products prodStore).2.2 (by decide)⟩

/-- C4 counterexample: the claim that every present, non-null year occurring
in the reviews appears as a key of yearly_data is false: a review with year 0
is dropped by the truthiness filter of source line 170. -/
theorem c4_counterexample :
    ¬ (∀ s : Store, ∀ y : Int, some y ∈ s.reviews.map (fun r => r.year) →
        (alookup y (bundle s).yearly_data).isSome = true) := by
  intro h
  exact absurd (h year0Store 0 (by decide)) (by decide)

/-- C4 amended: yearly_data has an entry for year y exactly when y is nonzero
and some review carries the present year y; reviews with an absent/null year
are excluded, and so is the (falsy in Python) year 0. -/
theorem c4_yearly_data_keys (s : Store) (y : Int) :
    (alookup y (bundle s).yearly_data).isSome = true ↔
      (y ≠ 0 ∧ some y ∈ s.reviews.map (fun r => r.year)) := by
  rw [bundle_yearly_data, yearlyData, alookup_filterMap_yearlyEntry]
  by_cases hy : y = 0
  · simp [hy]
  · rw [if_neg hy, alookup_yearlyResults]
    by_cases he : (s.reviews.filter (fun r => decide (r.year = some y))).isEmpty = true
    · rw [if_pos he]
      simp only [Option.map_none', Option.isSome_none, Bool.false_eq_true, false_iff,
        not_and]
      intro _
      exact (filter_key_isEmpty_iff (fun r => r.year) s.reviews (some y)).mp he
    · rw [if_neg he]
      simp only [Option.map_some', Option.isSome_some, true_iff]
      refine ⟨hy, ?_⟩
      by_contra hmem
      exact he ((filter_key_isEmpty_iff (fun r => r.year) s.reviews (some y)).mpr hmem)

/-- C5: when the store handle is unavailable the operation yields the
explicit None value, and on an available handle it always yields a bundle,
never a partial result. -/
theorem c5_unavailable_yields_none :
    load_stats_from_mongodb none = none ∧
    ∀ s : Store, load_stats_from_mongodb (some s) = some (bundle s) :=
  ⟨rfl, fun _ => rfl⟩

/-- C6: an available store with zero reviews (and hence, the summary
collections being derived from the reviews upstream, zero product summary
rows) yields a bundle, with zero totals and empty mappings and sequences. -/
theorem c6_empty_store (s : Store) (hr : s.reviews = []) (hp : s.product_stats = []) :
    load_stats_from_mongodb (some s) = some (bundle s) ∧
    (bundle s).total_reviews = 0 ∧
    (bundle s).avg_rating = some 0 ∧
    (bundle s).avg_word_count = some 0 ∧
    (bundle s).rating_counts = [] ∧
    (bundle s).rating_percentages = [] ∧
    (bundle s).yearly_data = [] ∧
    (bundle s).word_count_by_rating = [] ∧
    (bundle s).helpful_by_rating = [] ∧
    (bundle s).top_products = [] := by
  rcases s with ⟨rv, us, ps⟩
  have hr2 : rv = [] := hr
  have hp2 : ps = [] := hp
  subst hr2
  subst hp2
  exact ⟨rfl, rfl, rfl, rfl, rfl, rfl, rfl, rfl, rfl, rfl⟩

/-- C6 witness: the all-empty store yields total_reviews = 0. -/
theorem c6_witness : (bundle emptyStore).total_reviews = 0 :=
  (c6_empty_store emptyStore rfl rfl).2.1

/-- C7: for every score group key, the per-score word-count and
helpful-ratio averages equal the mean over exactly the reviews of that group
in which the relevant field is present; a review missing the field is
excluded, not counted as zero. -/
theorem c7_averages_over_present_only (s : Store) (k : Option ℚ) :
    (k ∈ s.reviews.map (fun r => r.score) →
      alookup k (bundle s).word_count_by_rating =
        some (avgOpt ((s.reviews.filter (fun r => decide (r.score = k))).filterMap
          (fun r => r.word_count)))) ∧
    (k ∈ (s.reviews.filter (fun r => (r.helpful).isSome)).map (fun r => r.score) →
      alookup k (bundle s).helpful_by_rating =
        some (avgOpt ((s.reviews.filter (fun r => decide (r.score = k))).filterMap
          (fun r => r.helpful)))) := by
  constructor
  · intro hk
    rw [bundle_word_count_by_rating, wcByRating,
      alookup_mapVal GroupAcc.avg k (wcResults s.reviews), alookup_wcResults]
    have hne : ¬ (s.reviews.filter (fun r => decide (r.score = k))).isEmpty = true :=
      fun he => ((filter_key_isEmpty_iff (fun r => r.score) s.reviews k).mp he) hk
    rw [if_neg hne]
    simp [GroupAcc.avg_ofList]
  · intro hk
    rw [bundle_helpful_by_rating, helpByRating,
      alookup_mapVal GroupAcc.avg k (helpResults s.reviews), alookup_helpResults]
    have hne : ¬ ((s.reviews.filter (fun r => (r.helpful).isSome)).filter
        (fun r => decide (r.score = k))).isEmpty = true :=
      fun he => ((filter_key_isEmpty_iff (fun r => r.score)
        (s.reviews.filter (fun r => (r.helpful).isSome)) k).mp he) hk
    rw [if_neg hne]
    simp only [Option.map_some']
    rw [GroupAcc.avg_ofList,
      filter_swap (fun r : Review => (r.helpful).isSome)
        (fun r : Review => decide (r.score = k)) s.reviews,
      filterMap_filter_isSome (fun r : Review => r.helpful)
        (s.reviews.filter (fun r : Review => decide (r.score = k)))]

/-- C7 witness: with one score-5 review carrying word count 100 and one
score-5 review missing it, the group average is the mean over the single
present value. -/
theorem c7_witness :
    (some (5 : ℚ)) ∈ wcStore.reviews.map (fun r => r.score) ∧
    alookup (some (5 : ℚ)) (bundle wcStore).word_count_by_rating =
      some (avgOpt ((wcStore.reviews.filter
        (fun r => decide (r.score = some (5 : ℚ)))).filterMap
          (fun r => r.word_count))) :=
  ⟨by decide, (c7_averages_over_present_only wcStore (some 5)).1 (by decide)⟩

/-- C8: the invocation leaves the store contents unchanged (all issued
operations are reads) and is deterministic in the store contents: equal
stores yield structurally identical results. -/
theorem c8_pure_and_deterministic (s t : Store) :
    (load_stats_exec s).2 = s ∧
    (s = t → load_stats_exec s = load_stats_exec t) :=
  ⟨rfl, fun h => by rw [h]⟩

/-- C8 witness at the empty store. -/
theorem c8_witness :
    (load_stats_exec emptyStore).2 = emptyStore ∧
    load_stats_exec emptyStore = load_stats_exec emptyStore :=
  ⟨(c8_pure_and_deterministic emptyStore emptyStore).1,
    (c8_pure_and_deterministic emptyStore emptyStore).2 rfl⟩

/-- C9: the rating_counts values sum to total_reviews (the group stage
partitions the whole collection), and a missing score forms its own
null-keyed group rather than being dropped. -/
theorem c9_rating_counts_sum (s : Store) :
    (((bundle s).rating_counts).map (fun e => e.2)).sum = (bundle s).total_reviews ∧
    ((alookup (none : Option ℚ) (bundle s).rating_counts).isSome = true ↔
      (none : Option ℚ) ∈ s.reviews.map (fun r => r.score)) := by
  constructor
  · rw [bundle_rating_counts, bundle_total_reviews, ratingCounts, ratingResults,
      sortByKey, List.map_map]
    exact (List.Perm.sum_eq
      ((perm_sortWith (fun a b : Option ℚ × GroupAcc => keyLE qLE a.1 b.1)
        (groupBy (fun r => r.score) (fun _ => none) s.reviews)).map
          ((fun e : Option ℚ × Nat => e.2) ∘
            (fun e : Option ℚ × GroupAcc => (e.1, e.2.n))))).trans
      (nsum_groupBy (fun r => r.score) (fun _ => none) s.reviews)
  · rw [bundle_rating_counts, ratingCounts,
      alookup_mapVal GroupAcc.n (none : Option ℚ) (ratingResults s.reviews),
      alookup_ratingResults]
    by_cases he :
        (s.reviews.filter (fun r => decide (r.score = (none : Option ℚ)))).isEmpty = true
    · rw [if_pos he]
      simp only [Option.map_none', Option.isSome_none, Bool.false_eq_true, false_iff]
      exact (filter_key_isEmpty_iff (fun r => r.score) s.reviews none).mp he
    · rw [if_neg he]
      simp only [Option.map_some', Option.isSome_some, true_iff]
      by_contra hmem
      exact he ((filter_key_isEmpty_iff (fun r => r.score) s.reviews none).mpr hmem)

/-- C10: every bundle carries the extra fields power_users, equal to the
power segment counter, and the constant source label. -/
theorem c10_power_users_and_source (s : Store) :
    (bundle s).power_users = (bundle s).user_segments.power ∧
    (bundle s).source = "MongoDB (150K Sample)" :=
  ⟨rfl, rfl⟩

end AmazonDashboard
